import Mathlib

/-!
Verification of the duckdb asyncio bridge (src/duckdb/asyncio/core.py and
src/duckdb/asyncio/utils.py).

The source code wraps a synchronous DuckDB connection behind a single-worker
asyncio task queue.  We give a shallow embedding of the `Agent` class
(its `submit`, `start`, `stop` methods and its `run` worker loop) and of the
`AsyncConnection` / `AsyncCursor` facades built on top of it.

Modelling conventions:

* An operation handed to `Agent.submit` is modelled by the `TaskEntry` record:
  `fid` identifies the future created for it, and `outcome` is what running
  the operation produces — `Except.ok v` if the Python callable returns `v`,
  `Except.error e` if it raises the exception `e`.  The worker's
  `except BaseException` clause catches every exception, so a single
  exception type (`Exc`) covers all raised conditions, fatal ones included.
* `Agent` carries the fields of the Python class (`running`, `queue`) plus
  the worker handle abstracted as `workerAlive` (there is a live `run` task)
  and `spawns` (how many worker tasks `asyncio.create_task` ever launched),
  and two ghost histories: `submitted` (every task ever enqueued, in
  submission order) and `resolved` (every future resolved by the worker, in
  resolution order).
* The fine-grained behaviour of the worker loop is the transition relation
  `AStep`; `Reach` is reachability from a freshly constructed agent.  The
  loop body that dequeues a task and the `asyncio.to_thread` execution that
  later resolves its future are separate steps (`take` / `resolveTask`), so
  submissions may interleave with an in-flight operation, as in the source.
* Awaiting a future returned by `_execute` is modelled by `Agent.awaitAll`:
  the caller suspends until the worker has processed the queue up to (and
  hence including) the task just placed at its tail.  If no worker task is
  alive the future is never resolved and the caller suspends forever, which
  the model renders as `none`.
-/

abbrev Val := Nat
abbrev Exc := Nat

deriving instance DecidableEq for Except

structure TaskEntry where
  fid : Nat
  outcome : Except Exc Val
deriving DecidableEq, Repr

structure Agent where
  running : Bool
  queue : List TaskEntry
  inflight : Option TaskEntry
  workerAlive : Bool
  spawns : Nat
  submitted : List TaskEntry
  resolved : List TaskEntry
deriving DecidableEq, Repr

/-- Agent.__init__ (core.py:15-19): worker None, running False, empty queue. -/
def initAgent : Agent :=
  { running := false, queue := [], inflight := none, workerAlive := false,
    spawns := 0, submitted := [], resolved := [] }

/-- Agent.submit (core.py:21-24): create a future, put the task at the tail
of the FIFO queue and return the future at once.  Ghost field `submitted`
logs the submission order. -/
def Agent.submit (s : Agent) (t : TaskEntry) : Agent :=
  { s with queue := s.queue ++ [t], submitted := s.submitted ++ [t] }

/-- Agent.start (core.py:26-29): if not running, set the flag and launch one
worker task with asyncio.create_task. -/
def Agent.start (s : Agent) : Agent :=
  if s.running then s
  else { s with running := true, workerAlive := true, spawns := s.spawns + 1 }

/-- The worker observing `running = false` with an empty queue: it resolves
anything still in flight, drains the queue and exits (core.py:36-53 run
together with the await in stop).  Used to model `await self.worker`. -/
def Agent.drainAndExit (s : Agent) : Agent :=
  { s with resolved := s.resolved ++ s.inflight.toList ++ s.queue,
           inflight := none, queue := [], workerAlive := false }

/-- Agent.stop (core.py:31-34): if running, clear the flag and await the
worker, which finishes what is queued and exits. -/
def Agent.stop (s : Agent) : Agent :=
  if s.running then Agent.drainAndExit { s with running := false } else s

/-- Awaiting the future of the most recently submitted task: the single
worker resolves every earlier queued task first (FIFO), then this one, and
the caller resumes.  With no live worker the await never completes (`none`).
After the queue is emptied the worker task stays alive exactly when
`running` is still set (core.py:38-42). -/
def Agent.awaitAll (s : Agent) : Option Agent :=
  if s.workerAlive then
    some { s with resolved := s.resolved ++ s.inflight.toList ++ s.queue,
                  inflight := none, queue := [], workerAlive := s.running }
  else none

/-- Well-formedness tying the `running` flag to the worker task: whenever
`start` has set `running`, the worker launched by it is alive (the code
only clears `running` in `stop`, which then awaits the worker).  Every
state a program can actually reach satisfies this. -/
def AgentWF (s : Agent) : Prop := s.running = true → s.workerAlive = true

instance (s : Agent) : Decidable (AgentWF s) := by
  unfold AgentWF; infer_instance

/-- AsyncConnection._execute (core.py:84-91): lazily start the agent when it
is not running, submit the callable, await the future, return its result —
the operation's value, or its exception re-raised. -/
def connExecute (ag : Agent) (t : TaskEntry) : Option (Except Exc Val × Agent) :=
  let ag1 := if ag.running then ag else Agent.start ag
  match Agent.awaitAll (Agent.submit ag1 t) with
  | none => none
  | some ag2 => some (t.outcome, ag2)

/-- AsyncCursor._execute (core.py:150-153): submit the callable to the shared
agent and await the future.  There is no lazy start here. -/
def cursorExecute (ag : Agent) (t : TaskEntry) : Option (Except Exc Val × Agent) :=
  match Agent.awaitAll (Agent.submit ag t) with
  | none => none
  | some ag2 => some (t.outcome, ag2)

/-- AsyncConnection state: its exclusively owned agent, the underlying
handle's scalar rowcount attribute, and a ghost flag recording that the
session's close method ran. -/
structure ConnState where
  agent : Agent
  rowcount : Int
  closeInvoked : Bool
deriving DecidableEq, Repr

/-- AsyncConnection.close (core.py:96-100): route the handle's close callable
through `_execute`; if that re-raises, the exception propagates and the rest
of the method is skipped; otherwise stop the agent if it is still running.
`closeOut` is the outcome of the underlying `self._connection.close` call,
`fid` the identity of the future created for it. -/
def connClose (s : ConnState) (closeOut : Except Exc Val) (fid : Nat) :
    Option (Except Exc Val × ConnState) :=
  match connExecute s.agent ⟨fid, closeOut⟩ with
  | none => none
  | some (Except.error e, ag1) =>
      some (Except.error e, { s with agent := ag1, closeInvoked := true })
  | some (Except.ok v, ag1) =>
      let ag2 := if ag1.running then Agent.stop ag1 else ag1
      some (Except.ok v, { s with agent := ag2, closeInvoked := true })

/-- AsyncConnection.__aexit__ (core.py:78-82): always call close first (the
exception info from the scoped body is ignored by the code); if close
raises, that exception propagates and the trailing stop is skipped;
otherwise stop the agent if still running. -/
def connAexit (s : ConnState) (closeOut : Except Exc Val) (fid : Nat)
    (_excBody : Option Exc) : Option (Except Exc Val × ConnState) :=
  match connClose s closeOut fid with
  | none => none
  | some (Except.error e, s1) => some (Except.error e, s1)
  | some (Except.ok v, s1) =>
      let ag := if s1.agent.running then Agent.stop s1.agent else s1.agent
      some (Except.ok v, { s1 with agent := ag })

/-- AsyncCursor close: the delegated `close` capability
(utils.py:30-34 applied to "close" in core.py:111-128), i.e.
`self._execute(self._connection.close)` through the shared agent. -/
def cursorClose (ag : Agent) (closeOut : Except Exc Val) (fid : Nat) :
    Option (Except Exc Val × Agent) :=
  cursorExecute ag ⟨fid, closeOut⟩

/-- AsyncCursor.__aexit__ (core.py:138-139): unconditionally `await
self.close()`; the exception info of the scoped body is ignored. -/
def cursorAexit (ag : Agent) (closeOut : Except Exc Val) (fid : Nat)
    (_excBody : Option Exc) : Option (Except Exc Val × Agent) :=
  cursorClose ag closeOut fid

/-- The rowcount property installed by proxy_property_directly("rowcount")
(core.py:65, utils.py:44-48): a plain attribute read on the underlying
handle, returning its value and touching nothing else. -/
def rowcountRead (s : ConnState) : Int × ConnState :=
  (s.rowcount, s)

/-! ### Asynchronous iteration (AsyncCursor.__aiter__, core.py:141-148)

The cursor's result set is abstracted by the number of rows it still holds;
`fetchmany(size=100)` returns `min 100 remaining` rows.  `aiterTrace`
records the interleaving of fetch calls (with the number of rows each
returned) and the yields of the async generator: it fetches a batch, yields
each of its rows, and repeats; an empty batch terminates the generator. -/

inductive ItEvent where
  | fetchCall (returned : Nat)
  | yieldRow
deriving DecidableEq, Repr

def aiterTrace (remaining : Nat) : List ItEvent :=
  if 0 < min 100 remaining then
    ItEvent.fetchCall (min 100 remaining) ::
      (List.replicate (min 100 remaining) ItEvent.yieldRow ++
        aiterTrace (remaining - min 100 remaining))
  else [ItEvent.fetchCall 0]
termination_by remaining
decreasing_by omega

/-- The sizes returned by the successive underlying fetch calls, in order. -/
def fetchSizes (remaining : Nat) : List Nat :=
  (aiterTrace remaining).filterMap fun ev =>
    match ev with
    | ItEvent.fetchCall n => some n
    | ItEvent.yieldRow => none

/-! ### The worker loop as a transition system

`AStep` captures one atomic step of the system around one agent: a producer
enqueueing (`submit`, core.py:21-24), `start` launching the worker when the
flag is down (core.py:26-29), `stop` clearing the flag (core.py:31-33; the
subsequent `await self.worker` is the worker taking its own steps until
`exitLoop`), the worker dequeueing the oldest entry (`take`, core.py:45),
the worker finishing the operation and resolving its future with the value
or the caught exception (`resolveTask`, core.py:47-53), and the worker
observing `running = false` with an empty queue and exiting (`exitLoop`,
core.py:38-39).  Dequeueing and resolving are separate steps, so arbitrary
submissions interleave with an in-flight operation of arbitrary duration. -/

inductive AStep : Agent → Agent → Prop where
  | submit (s : Agent) (t : TaskEntry) :
      AStep s { s with queue := s.queue ++ [t], submitted := s.submitted ++ [t] }
  | start (s : Agent) (h : s.running = false) :
      AStep s { s with running := true, workerAlive := true, spawns := s.spawns + 1 }
  | stopFlag (s : Agent) (h : s.running = true) :
      AStep s { s with running := false }
  | take (s : Agent) (t : TaskEntry) (rest : List TaskEntry)
      (halive : s.workerAlive = true) (hfree : s.inflight = none)
      (hq : s.queue = t :: rest) :
      AStep s { s with queue := rest, inflight := some t }
  | resolveTask (s : Agent) (t : TaskEntry) (hin : s.inflight = some t) :
      AStep s { s with inflight := none, resolved := s.resolved ++ [t] }
  | exitLoop (s : Agent) (halive : s.workerAlive = true) (hfree : s.inflight = none)
      (hrun : s.running = false) (hq : s.queue = []) :
      AStep s { s with workerAlive := false }

/-- States reachable from a freshly constructed agent. -/
inductive Reach : Agent → Prop where
  | init : Reach initAgent
  | step {s s' : Agent} (h : Reach s) (hs : AStep s s') : Reach s'

/-- A concrete task used in the reachable witness states below. -/
def t0 : TaskEntry := ⟨0, Except.ok 0⟩

/-- Concrete run of the system: after submitting `t0` to a fresh agent. -/
def stepState1 : Agent :=
  { running := false, queue := [t0], inflight := none, workerAlive := false,
    spawns := 0, submitted := [t0], resolved := [] }

/-- After `start`. -/
def stepState2 : Agent :=
  { running := true, queue := [t0], inflight := none, workerAlive := true,
    spawns := 1, submitted := [t0], resolved := [] }

/-- After the worker dequeues `t0`. -/
def stepState3 : Agent :=
  { running := true, queue := [], inflight := some t0, workerAlive := true,
    spawns := 1, submitted := [t0], resolved := [] }

/-- After the worker resolves the future of `t0`. -/
def stepState4 : Agent :=
  { running := true, queue := [], inflight := none, workerAlive := true,
    spawns := 1, submitted := [t0], resolved := [t0] }

/-- After `stop` clears the running flag. -/
def stepState5 : Agent :=
  { running := false, queue := [], inflight := none, workerAlive := true,
    spawns := 1, submitted := [t0], resolved := [t0] }

/-- After the worker observes the flag and exits. -/
def stepState6 : Agent :=
  { running := false, queue := [], inflight := none, workerAlive := false,
    spawns := 1, submitted := [t0], resolved := [t0] }

/-- A freshly constructed AsyncConnection (core.py:68-70): handle open,
agent idle. -/
def conn0 : ConnState :=
  { agent := initAgent, rowcount := 0, closeInvoked := false }

/-- An agent that has been started and is idling (worker alive, queue
empty). -/
def agAlive : Agent :=
  { running := true, queue := [], inflight := none, workerAlive := true,
    spawns := 1, submitted := [], resolved := [] }

/-- The close task of the concrete retired-session scenario for C7. -/
def tClose0 : TaskEntry := ⟨0, Except.ok 0⟩

/-- The agent of `conn0` after `close()` completed: stopped, drained. -/
def agentRetired : Agent :=
  { running := false, queue := [], inflight := none, workerAlive := false,
    spawns := 1, submitted := [tClose0], resolved := [tClose0] }

/-- A task submitted through a session capability after `close()`. -/
def tAfter : TaskEntry := ⟨1, Except.ok 5⟩

/-- A task submitted through a cursor capability on a never-started agent. -/
def tPending : TaskEntry := ⟨0, Except.ok 1⟩

/-- C8: `start` and `stop` are idempotent.  `start` on a running agent
changes nothing and launches no second worker (`start ∘ start = start`, and
one `start` launches at most one new worker task); `stop` on an agent that
is not running is a no-op (`stop ∘ stop = stop`). -/
theorem c8_idempotent_start_stop (s : Agent) :
    Agent.start (Agent.start s) = Agent.start s
    ∧ Agent.stop (Agent.stop s) = Agent.stop s
    ∧ (Agent.start (Agent.start s)).spawns = (Agent.start s).spawns
    ∧ (Agent.start s).spawns ≤ s.spawns + 1
    ∧ s.spawns ≤ (Agent.start s).spawns := by
  refine ⟨?_, ?_, ?_, ?_, ?_⟩
  · by_cases h : s.running <;> simp [Agent.start, h]
  · by_cases h : s.running <;> simp [Agent.stop, Agent.drainAndExit, h]
  · by_cases h : s.running <;> simp [Agent.start, h]
  · by_cases h : s.running <;> simp [Agent.start, h]
  · by_cases h : s.running <;> simp [Agent.start, h]

set_option maxRecDepth 20000 in
/-- C5: iterating a cursor holding 250 rows performs fetch calls returning
100, 100, 50 rows, yields all 250 rows, then observes one empty batch and
terminates with no further fetch call; no fetch returns more than the fixed
batch size 100 (nothing is fetched eagerly), and each batch is fully
yielded (consumed) before the next fetch call is issued, as the explicit
trace shows. -/
theorem c5_batched_iteration :
    fetchSizes 250 = [100, 100, 50, 0]
    ∧ (aiterTrace 250).count ItEvent.yieldRow = 250
    ∧ aiterTrace 250 =
        ItEvent.fetchCall 100 ::
          (List.replicate 100 ItEvent.yieldRow ++
            (ItEvent.fetchCall 100 ::
              (List.replicate 100 ItEvent.yieldRow ++
                (ItEvent.fetchCall 50 ::
                  (List.replicate 50 ItEvent.yieldRow ++
                    [ItEvent.fetchCall 0])))))
    ∧ ((fetchSizes 250).all fun n => Nat.ble n 100) = true := by
  have h250 : aiterTrace 250 =
      ItEvent.fetchCall 100 ::
        (List.replicate 100 ItEvent.yieldRow ++
          (ItEvent.fetchCall 100 ::
            (List.replicate 100 ItEvent.yieldRow ++
              (ItEvent.fetchCall 50 ::
                (List.replicate 50 ItEvent.yieldRow ++
                  [ItEvent.fetchCall 0]))))) := by
    rw [aiterTrace]; norm_num
    rw [aiterTrace]; norm_num
    rw [aiterTrace]; norm_num
    rw [aiterTrace]; norm_num
  refine ⟨?_, ?_, h250, ?_⟩
  · rw [fetchSizes, h250]; decide
  · rw [h250]; decide
  · rw [fetchSizes, h250]; decide

/-- History invariant of the worker loop: at every reachable state, the
submission log splits exactly into the already-resolved futures, the task
in flight (if any), and the still-queued tasks, in that order. -/
theorem reach_history_split (s : Agent) (h : Reach s) :
    s.submitted = s.resolved ++ s.inflight.toList ++ s.queue := by
  induction h with
  | init => rfl
  | step h hs ih =>
    cases hs with
    | submit t => simp [ih]
    | start h1 => simpa using ih
    | stopFlag h1 => simpa using ih
    | take t rest halive hfree hq => simp [ih, hfree, hq]
    | resolveTask t hin => simp [ih, hin]
    | exitLoop h1 hfree hrun hq => simpa using ih

/-- Every reachable state satisfies `AgentWF` would follow similarly; the
claims below only need the history invariant. -/
theorem reach_resolved_submitted_split (s : Agent) (h : Reach s) :
    s.resolved ++ (s.inflight.toList ++ s.queue) = s.submitted := by
  rw [reach_history_split s h, List.append_assoc]

/-- C1: FIFO resolution.  In every state reachable by the worker loop —
whatever interleaving of concurrent submitters, worker steps and
operation durations produced it — the sequence of resolved futures is a
prefix of the submission sequence, so futures resolve exactly in the order
their tasks were enqueued. -/
theorem c1_fifo_resolution (s : Agent) (h : Reach s) :
    ∃ rest, s.resolved ++ rest = s.submitted :=
  ⟨s.inflight.toList ++ s.queue, reach_resolved_submitted_split s h⟩

theorem reach_stepState1 : Reach stepState1 :=
  Reach.step Reach.init (AStep.submit initAgent t0)

theorem reach_stepState2 : Reach stepState2 :=
  Reach.step reach_stepState1 (AStep.start stepState1 rfl)

theorem reach_stepState3 : Reach stepState3 :=
  Reach.step reach_stepState2 (AStep.take stepState2 t0 [] rfl rfl rfl)

theorem reach_stepState4 : Reach stepState4 :=
  Reach.step reach_stepState3 (AStep.resolveTask stepState3 t0 rfl)

theorem reach_stepState5 : Reach stepState5 :=
  Reach.step reach_stepState4 (AStep.stopFlag stepState4 rfl)

/-- Witness for C1 at the concrete reachable state `stepState4`. -/
theorem c1_fifo_resolution_witness :
    ∃ rest, stepState4.resolved ++ rest = stepState4.submitted :=
  c1_fifo_resolution stepState4 reach_stepState4

/-- C2: stop never discards queued work.  The only step that ends the
worker loop fires from a state where `running = false` and the queue is
empty (and nothing is in flight), and in the state after the exit the
resolved futures are exactly all submitted ones — so when `stop` returns
(it awaits precisely this exit), every previously submitted future has
been resolved. -/
theorem c2_stop_drains (s s' : Agent) (hr : Reach s) (hs : AStep s s')
    (halive : s.workerAlive = true) (hdead : s'.workerAlive = false) :
    s.running = false ∧ s.queue = [] ∧ s.inflight = none
      ∧ s'.resolved = s'.submitted := by
  have hinv := reach_history_split s hr
  cases hs with
  | submit t => simp [halive] at hdead
  | start h1 => simp at hdead
  | stopFlag h1 => simp [halive] at hdead
  | take t rest h1 h2 h3 => simp [halive] at hdead
  | resolveTask t hin => simp [halive] at hdead
  | exitLoop h1 hfree hrun hq =>
      refine ⟨hrun, hq, hfree, ?_⟩
      show s.resolved = s.submitted
      rw [hinv, hfree, hq]; simp

/-- Witness for C2: the concrete exit step from `stepState5` to
`stepState6`. -/
theorem c2_stop_drains_witness :
    stepState5.running = false ∧ stepState5.queue = []
      ∧ stepState5.inflight = none
      ∧ stepState6.resolved = stepState6.submitted :=
  c2_stop_drains stepState5 stepState6 reach_stepState5
    (AStep.exitLoop stepState5 rfl rfl rfl rfl) rfl rfl

/-- Evaluation of AsyncConnection._execute on an agent whose running flag
implies a live worker: the lazy start guarantees a worker, the task is
executed after everything queued before it, its future is resolved with its
outcome, and the agent ends up running with an alive worker. -/
theorem connExecute_eq_of_wf (ag : Agent) (t : TaskEntry) (hwf : AgentWF ag) :
    connExecute ag t =
      some (t.outcome,
        { running := true, queue := [], inflight := none, workerAlive := true,
          spawns := (if ag.running then ag else Agent.start ag).spawns,
          submitted := ag.submitted ++ [t],
          resolved := ag.resolved ++ ag.inflight.toList ++ (ag.queue ++ [t]) }) := by
  by_cases hr : ag.running
  · have hal := hwf hr
    simp [connExecute, Agent.submit, Agent.awaitAll, hr, hal]
  · simp only [Bool.not_eq_true] at hr
    simp [connExecute, Agent.submit, Agent.awaitAll, Agent.start, hr]

/-- Evaluation of AsyncCursor._execute when the shared worker is alive:
the task is resolved with its outcome and the agent keeps its running
flag. -/
theorem cursorExecute_eq_of_alive (ag : Agent) (t : TaskEntry)
    (hal : ag.workerAlive = true) :
    cursorExecute ag t =
      some (t.outcome,
        { running := ag.running, queue := [], inflight := none,
          workerAlive := ag.running, spawns := ag.spawns,
          submitted := ag.submitted ++ [t],
          resolved := ag.resolved ++ ag.inflight.toList ++ (ag.queue ++ [t]) }) := by
  simp [cursorExecute, Agent.submit, Agent.awaitAll, hal]

/-- Evaluation of AsyncCursor._execute when no worker task is alive: the
await never completes. -/
theorem cursorExecute_eq_of_dead (ag : Agent) (t : TaskEntry)
    (hal : ag.workerAlive = false) :
    cursorExecute ag t = none := by
  simp [cursorExecute, Agent.submit, Agent.awaitAll, hal]

/-- Evaluation of AsyncConnection.close when the underlying handle close
succeeds: the close task is executed through the agent, then the agent is
stopped (flag cleared, worker drained and exited). -/
theorem connClose_ok (s : ConnState) (v : Val) (fid : Nat)
    (hwf : AgentWF s.agent) :
    connClose s (Except.ok v) fid =
      some (Except.ok v,
        { agent :=
            { running := false, queue := [], inflight := none,
              workerAlive := false,
              spawns := (if s.agent.running then s.agent
                else Agent.start s.agent).spawns,
              submitted := s.agent.submitted ++ [⟨fid, Except.ok v⟩],
              resolved := s.agent.resolved ++ s.agent.inflight.toList
                ++ (s.agent.queue ++ [⟨fid, Except.ok v⟩]) },
          rowcount := s.rowcount, closeInvoked := true }) := by
  have hc := connExecute_eq_of_wf s.agent ⟨fid, Except.ok v⟩ hwf
  simp [connClose, hc, Agent.stop, Agent.drainAndExit]

/-- C3: exception capture and pass-through.  When a task's operation raises
any exception `e` (the worker catches `BaseException`, so every raised
condition is covered), the worker resolves that task's future with the
failure instead of letting it propagate: the awaiting `_execute` caller
observes exactly `e` re-raised, the worker task stays alive with the agent
running, and a subsequently submitted task is still executed and
resolved. -/
theorem c3_exception_capture (ag : Agent) (t1 t2 : TaskEntry) (e : Exc)
    (hwf : AgentWF ag) (herr : t1.outcome = Except.error e) :
    ∃ ag1 ag2,
      connExecute ag t1 = some (Except.error e, ag1)
      ∧ t1 ∈ ag1.resolved
      ∧ ag1.workerAlive = true
      ∧ ag1.running = true
      ∧ connExecute ag1 t2 = some (t2.outcome, ag2)
      ∧ t2 ∈ ag2.resolved := by
  have h1 := connExecute_eq_of_wf ag t1 hwf
  rw [herr] at h1
  have h2 := connExecute_eq_of_wf
    { running := true, queue := [], inflight := none, workerAlive := true,
      spawns := (if ag.running then ag else Agent.start ag).spawns,
      submitted := ag.submitted ++ [t1],
      resolved := ag.resolved ++ ag.inflight.toList ++ (ag.queue ++ [t1]) }
    t2 (fun _ => rfl)
  exact ⟨_, _, h1, by simp, rfl, rfl, h2, by simp⟩

/-- Witness for C3: a failing task on a started idle agent, followed by a
succeeding one. -/
theorem c3_exception_capture_witness :
    ∃ ag1 ag2,
      connExecute agAlive ⟨0, Except.error 7⟩ = some (Except.error 7, ag1)
      ∧ (⟨0, Except.error 7⟩ : TaskEntry) ∈ ag1.resolved
      ∧ ag1.workerAlive = true
      ∧ ag1.running = true
      ∧ connExecute ag1 ⟨1, Except.ok 3⟩ = some ((⟨1, Except.ok 3⟩ : TaskEntry).outcome, ag2)
      ∧ (⟨1, Except.ok 3⟩ : TaskEntry) ∈ ag2.resolved :=
  c3_exception_capture agAlive ⟨0, Except.error 7⟩ ⟨1, Except.ok 3⟩ 7
    (by decide) rfl

/-- Counterexample for C4: a forwarded capability invoked on a cursor whose
agent was never started does not start the agent and its future is never
resolved — the task sits on a workerless queue and the awaiting caller
suspends forever, contrary to the claim. -/
theorem c4_counterexample :
    cursorExecute initAgent tPending = none
    ∧ (Agent.submit initAgent tPending).running = false
    ∧ (Agent.submit initAgent tPending).workerAlive = false
    ∧ (Agent.submit initAgent tPending).queue = [tPending] := by
  decide

/-- C4 (amended): on a never-started agent, a forwarded capability of the
session lazily starts the agent before submitting and its future is
resolved with the operation's outcome; the cursor's `_execute`, however,
submits without starting anything — the running flag and worker-launch
count are untouched and, with no worker alive, the submitted task's future
is never resolved. -/
theorem c4_lazy_start_amended (ag : Agent) (t : TaskEntry)
    (hrun : ag.running = false) (hal : ag.workerAlive = false) :
    (∃ ag1, connExecute ag t = some (t.outcome, ag1)
        ∧ ag1.running = true ∧ ag1.spawns = ag.spawns + 1 ∧ t ∈ ag1.resolved)
    ∧ (Agent.submit ag t).running = false
    ∧ (Agent.submit ag t).spawns = ag.spawns
    ∧ (Agent.submit ag t).workerAlive = false
    ∧ cursorExecute ag t = none := by
  have hwf : AgentWF ag := fun h => by rw [hrun] at h; exact absurd h (by simp)
  refine ⟨⟨_, connExecute_eq_of_wf ag t hwf, rfl, ?_, by simp⟩,
    ?_, rfl, ?_, cursorExecute_eq_of_dead ag t hal⟩
  · simp [hrun, Agent.start]
  · simpa [Agent.submit] using hrun
  · simpa [Agent.submit] using hal

/-- Witness for C4 (amended) on a freshly constructed agent. -/
theorem c4_lazy_start_amended_witness :
    (∃ ag1, connExecute initAgent tPending = some (tPending.outcome, ag1)
        ∧ ag1.running = true ∧ ag1.spawns = initAgent.spawns + 1
        ∧ tPending ∈ ag1.resolved)
    ∧ (Agent.submit initAgent tPending).running = false
    ∧ (Agent.submit initAgent tPending).spawns = initAgent.spawns
    ∧ (Agent.submit initAgent tPending).workerAlive = false
    ∧ cursorExecute initAgent tPending = none :=
  c4_lazy_start_amended initAgent tPending rfl rfl

/-- C9: reading the rowcount property is a direct synchronous read of the
underlying handle, bypassing the agent entirely: it returns the handle's
scalar, changes no field of the session, enqueues nothing, and leaves the
agent's flag, queue, worker and spawn count untouched. -/
theorem c9_rowcount_direct (s : ConnState) :
    (rowcountRead s).1 = s.rowcount
    ∧ (rowcountRead s).2 = s
    ∧ (rowcountRead s).2.agent.running = s.agent.running
    ∧ (rowcountRead s).2.agent.queue = s.agent.queue
    ∧ (rowcountRead s).2.agent.workerAlive = s.agent.workerAlive
    ∧ (rowcountRead s).2.agent.spawns = s.agent.spawns
    ∧ (rowcountRead s).2.agent.submitted = s.agent.submitted
    ∧ (rowcountRead s).2.closeInvoked = s.closeInvoked :=
  ⟨rfl, rfl, rfl, rfl, rfl, rfl, rfl, rfl⟩

/-- C10: if the underlying handle's close raises, `close()` re-raises that
exception to its caller before reaching the stop call, leaving the agent
with `running = true` and the worker task still alive; a scoped exit whose
close fails propagates the same exception and likewise skips the stop. -/
theorem c10_close_failure_leaves_running (s : ConnState) (e : Exc) (fid : Nat)
    (excBody : Option Exc) (hwf : AgentWF s.agent) :
    connClose s (Except.error e) fid =
      some (Except.error e,
        { agent :=
            { running := true, queue := [], inflight := none,
              workerAlive := true,
              spawns := (if s.agent.running then s.agent
                else Agent.start s.agent).spawns,
              submitted := s.agent.submitted ++ [⟨fid, Except.error e⟩],
              resolved := s.agent.resolved ++ s.agent.inflight.toList
                ++ (s.agent.queue ++ [⟨fid, Except.error e⟩]) },
          rowcount := s.rowcount, closeInvoked := true })
    ∧ connAexit s (Except.error e) fid excBody = connClose s (Except.error e) fid := by
  have hc := connExecute_eq_of_wf s.agent ⟨fid, Except.error e⟩ hwf
  constructor
  · simp [connClose, hc]
  · simp [connAexit, connClose, hc]

/-- Witness for C10 on a fresh session whose handle close raises
exception 3. -/
theorem c10_close_failure_leaves_running_witness :
    connClose conn0 (Except.error 3) 0 =
      some (Except.error 3,
        { agent :=
            { running := true, queue := [], inflight := none,
              workerAlive := true,
              spawns := (if conn0.agent.running then conn0.agent
                else Agent.start conn0.agent).spawns,
              submitted := conn0.agent.submitted ++ [⟨0, Except.error 3⟩],
              resolved := conn0.agent.resolved ++ conn0.agent.inflight.toList
                ++ (conn0.agent.queue ++ [⟨0, Except.error 3⟩]) },
          rowcount := conn0.rowcount, closeInvoked := true })
    ∧ connAexit conn0 (Except.error 3) 0 (some 9) = connClose conn0 (Except.error 3) 0 :=
  c10_close_failure_leaves_running conn0 3 0 (some 9) (by decide)

/-- C6: scoped-exit guarantee.  Whatever exception information the scoped
body produced (the `__aexit__` arguments are ignored by the code), the
session exit path invokes close and — when the handle's close operation
itself succeeds — leaves the agent stopped: flag down, worker exited,
queue drained; the cursor exit path invokes the cursor's close on every
exit path, and with the shared worker alive that close task is executed
and its future resolved. -/
theorem c6_scoped_exit (s : ConnState) (v : Val) (fid : Nat)
    (excBody : Option Exc) (ag : Agent) (o : Except Exc Val) (f : Nat)
    (e2 : Option Exc) (hwf : AgentWF s.agent) (hal : ag.workerAlive = true) :
    (∃ s1, connAexit s (Except.ok v) fid excBody = some (Except.ok v, s1)
        ∧ s1.closeInvoked = true
        ∧ s1.agent.running = false
        ∧ s1.agent.workerAlive = false
        ∧ s1.agent.queue = [])
    ∧ connAexit s (Except.ok v) fid excBody = connAexit s (Except.ok v) fid none
    ∧ cursorAexit ag o f e2 = cursorClose ag o f
    ∧ (∃ ag1, cursorAexit ag o f e2 = some (o, ag1)
        ∧ (⟨f, o⟩ : TaskEntry) ∈ ag1.resolved) := by
  have hcl := connClose_ok s v fid hwf
  have hce := cursorExecute_eq_of_alive ag ⟨f, o⟩ hal
  refine ⟨?_, rfl, rfl, ?_⟩
  · refine ⟨⟨⟨false, [], none, false,
        (if s.agent.running then s.agent else Agent.start s.agent).spawns,
        s.agent.submitted ++ [⟨fid, Except.ok v⟩],
        s.agent.resolved ++ s.agent.inflight.toList
          ++ (s.agent.queue ++ [⟨fid, Except.ok v⟩])⟩,
        s.rowcount, true⟩, ?_, rfl, rfl, rfl, rfl⟩
    simp [connAexit, hcl]
  · exact ⟨_, by simpa [cursorAexit, cursorClose] using hce, by simp⟩

/-- Witness for C6: a fresh session exited with an exception pending in the
scoped body, and a cursor on a started idle agent likewise exited with an
exception pending. -/
theorem c6_scoped_exit_witness :
    (∃ s1, connAexit conn0 (Except.ok 0) 0 (some 5) = some (Except.ok 0, s1)
        ∧ s1.closeInvoked = true
        ∧ s1.agent.running = false
        ∧ s1.agent.workerAlive = false
        ∧ s1.agent.queue = [])
    ∧ connAexit conn0 (Except.ok 0) 0 (some 5) = connAexit conn0 (Except.ok 0) 0 none
    ∧ cursorAexit agAlive (Except.ok 2) 1 (some 9) = cursorClose agAlive (Except.ok 2) 1
    ∧ (∃ ag1, cursorAexit agAlive (Except.ok 2) 1 (some 9) = some (Except.ok 2, ag1)
        ∧ (⟨1, Except.ok 2⟩ : TaskEntry) ∈ ag1.resolved) :=
  c6_scoped_exit conn0 0 0 (some 5) agAlive (Except.ok 2) 1 (some 9)
    (by decide) rfl

/-- Counterexample for C7: after `close()` has completed on a fresh session
(its agent is retired: flag down, worker exited), invoking a forwarded
session capability sets the agent's running flag back to true and launches
a second worker — the agent is restarted without constructing a new
session, contrary to the claim. -/
theorem c7_counterexample :
    connClose conn0 (Except.ok 0) 0 =
      some (Except.ok 0,
        { agent := agentRetired, rowcount := 0, closeInvoked := true })
    ∧ agentRetired.running = false
    ∧ agentRetired.workerAlive = false
    ∧ connExecute agentRetired tAfter =
        some (Except.ok 5,
          { running := true, queue := [], inflight := none, workerAlive := true,
            spawns := 2, submitted := [tClose0, tAfter],
            resolved := [tClose0, tAfter] }) := by
  decide

/-- C7 (amended): after `close()` completes the agent is stopped (flag
down, worker exited), and cursor operations never revive it (`submit`
leaves the flag down and launches nothing, and a cursor capability's
future is never resolved on the dead agent); a forwarded session
capability, however, lazily restarts the retired agent: it sets `running`
back to true and launches a new worker. -/
theorem c7_retirement_amended (s : ConnState) (v : Val) (fid : Nat)
    (t u : TaskEntry) (hwf : AgentWF s.agent) :
    ∃ s1, connClose s (Except.ok v) fid = some (Except.ok v, s1)
      ∧ s1.agent.running = false
      ∧ s1.agent.workerAlive = false
      ∧ (Agent.submit s1.agent u).running = false
      ∧ (Agent.submit s1.agent u).spawns = s1.agent.spawns
      ∧ (Agent.submit s1.agent u).workerAlive = false
      ∧ cursorExecute s1.agent t = none
      ∧ (∃ ag2, connExecute s1.agent t = some (t.outcome, ag2)
          ∧ ag2.running = true ∧ ag2.workerAlive = true
          ∧ ag2.spawns = s1.agent.spawns + 1) := by
  have hcl := connClose_ok s v fid hwf
  refine ⟨_, hcl, rfl, rfl, rfl, rfl, rfl,
    cursorExecute_eq_of_dead _ t rfl,
    ⟨_, connExecute_eq_of_wf _ t (fun h => absurd h (by simp)), rfl, rfl, ?_⟩⟩
  simp [Agent.start]

/-- Witness for C7 (amended) on a fresh session. -/
theorem c7_retirement_amended_witness :
    ∃ s1, connClose conn0 (Except.ok 0) 0 = some (Except.ok 0, s1)
      ∧ s1.agent.running = false
      ∧ s1.agent.workerAlive = false
      ∧ (Agent.submit s1.agent tPending).running = false
      ∧ (Agent.submit s1.agent tPending).spawns = s1.agent.spawns
      ∧ (Agent.submit s1.agent tPending).workerAlive = false
      ∧ cursorExecute s1.agent tAfter = none
      ∧ (∃ ag2, connExecute s1.agent tAfter = some (tAfter.outcome, ag2)
          ∧ ag2.running = true ∧ ag2.workerAlive = true
          ∧ ag2.spawns = s1.agent.spawns + 1) :=
  c7_retirement_amended conn0 0 0 tAfter tPending (by decide)
